import Mathlib

/-! dmSys: result codes and system information record

A shallow embedding of `engine/dlib/src/dlib/sys.h` (namespace `dmSys`):
the enumeration `Result` with the integer value of every enumerator, the
aggregate `SystemInfo` with the declared width of every field, and the contracts
of `GetSystemInfo`, `LoadResource` and `GetApplicationSupportPath`, which the
header declares and documents while their bodies live in the platform backends.
The `uint32_t` sizes are natural numbers: no arithmetic is done on them.
-/

namespace dmSys

/-- The enumerators of `enum Result` (sys.h, lines 9-45). -/
inductive Result where
  | RESULT_OK
  | RESULT_PERM
  | RESULT_NOENT
  | RESULT_SRCH
  | RESULT_INTR
  | RESULT_IO
  | RESULT_NXIO
  | RESULT_2BIG
  | RESULT_NOEXEC
  | RESULT_BADF
  | RESULT_CHILD
  | RESULT_DEADLK
  | RESULT_NOMEM
  | RESULT_ACCES
  | RESULT_FAULT
  | RESULT_BUSY
  | RESULT_EXIST
  | RESULT_XDEV
  | RESULT_NODEV
  | RESULT_NOTDIR
  | RESULT_ISDIR
  | RESULT_INVAL
  | RESULT_NFILE
  | RESULT_MFILE
  | RESULT_NOTTY
  | RESULT_TXTBSY
  | RESULT_FBIG
  | RESULT_NOSPC
  | RESULT_SPIPE
  | RESULT_ROFS
  | RESULT_MLINK
  | RESULT_PIPE
  | RESULT_UNKNOWN
  deriving DecidableEq, Repr, Fintype

namespace Result

/-- The integer each enumerator is declared with (the `= n` of its line). -/
def value : Result → Int
  | RESULT_OK      => 0
  | RESULT_PERM    => -1
  | RESULT_NOENT   => -2
  | RESULT_SRCH    => -3
  | RESULT_INTR    => -4
  | RESULT_IO      => -5
  | RESULT_NXIO    => -6
  | RESULT_2BIG    => -7
  | RESULT_NOEXEC  => -8
  | RESULT_BADF    => -9
  | RESULT_CHILD   => -10
  | RESULT_DEADLK  => -11
  | RESULT_NOMEM   => -12
  | RESULT_ACCES   => -13
  | RESULT_FAULT   => -14
  | RESULT_BUSY    => -15
  | RESULT_EXIST   => -16
  | RESULT_XDEV    => -17
  | RESULT_NODEV   => -18
  | RESULT_NOTDIR  => -19
  | RESULT_ISDIR   => -20
  | RESULT_INVAL   => -21
  | RESULT_NFILE   => -22
  | RESULT_MFILE   => -23
  | RESULT_NOTTY   => -24
  | RESULT_TXTBSY  => -25
  | RESULT_FBIG    => -26
  | RESULT_NOSPC   => -27
  | RESULT_SPIPE   => -28
  | RESULT_ROFS    => -29
  | RESULT_MLINK   => -30
  | RESULT_PIPE    => -31
  | RESULT_UNKNOWN => -1000

/-- The identifier each enumerator is declared under. -/
def name : Result → String
  | RESULT_OK      => "RESULT_OK"
  | RESULT_PERM    => "RESULT_PERM"
  | RESULT_NOENT   => "RESULT_NOENT"
  | RESULT_SRCH    => "RESULT_SRCH"
  | RESULT_INTR    => "RESULT_INTR"
  | RESULT_IO      => "RESULT_IO"
  | RESULT_NXIO    => "RESULT_NXIO"
  | RESULT_2BIG    => "RESULT_2BIG"
  | RESULT_NOEXEC  => "RESULT_NOEXEC"
  | RESULT_BADF    => "RESULT_BADF"
  | RESULT_CHILD   => "RESULT_CHILD"
  | RESULT_DEADLK  => "RESULT_DEADLK"
  | RESULT_NOMEM   => "RESULT_NOMEM"
  | RESULT_ACCES   => "RESULT_ACCES"
  | RESULT_FAULT   => "RESULT_FAULT"
  | RESULT_BUSY    => "RESULT_BUSY"
  | RESULT_EXIST   => "RESULT_EXIST"
  | RESULT_XDEV    => "RESULT_XDEV"
  | RESULT_NODEV   => "RESULT_NODEV"
  | RESULT_NOTDIR  => "RESULT_NOTDIR"
  | RESULT_ISDIR   => "RESULT_ISDIR"
  | RESULT_INVAL   => "RESULT_INVAL"
  | RESULT_NFILE   => "RESULT_NFILE"
  | RESULT_MFILE   => "RESULT_MFILE"
  | RESULT_NOTTY   => "RESULT_NOTTY"
  | RESULT_TXTBSY  => "RESULT_TXTBSY"
  | RESULT_FBIG    => "RESULT_FBIG"
  | RESULT_NOSPC   => "RESULT_NOSPC"
  | RESULT_SPIPE   => "RESULT_SPIPE"
  | RESULT_ROFS    => "RESULT_ROFS"
  | RESULT_MLINK   => "RESULT_MLINK"
  | RESULT_PIPE    => "RESULT_PIPE"
  | RESULT_UNKNOWN => "RESULT_UNKNOWN"

/-- The enumerators in the order the enumeration declares them. -/
def declared : List Result :=
  [ RESULT_OK, RESULT_PERM, RESULT_NOENT, RESULT_SRCH, RESULT_INTR, RESULT_IO,
    RESULT_NXIO, RESULT_2BIG, RESULT_NOEXEC, RESULT_BADF, RESULT_CHILD,
    RESULT_DEADLK, RESULT_NOMEM, RESULT_ACCES, RESULT_FAULT, RESULT_BUSY,
    RESULT_EXIST, RESULT_XDEV, RESULT_NODEV, RESULT_NOTDIR, RESULT_ISDIR,
    RESULT_INVAL, RESULT_NFILE, RESULT_MFILE, RESULT_NOTTY, RESULT_TXTBSY,
    RESULT_FBIG, RESULT_NOSPC, RESULT_SPIPE, RESULT_ROFS, RESULT_MLINK,
    RESULT_PIPE, RESULT_UNKNOWN ]

/-- The mapped error codes: every declared code other than `RESULT_OK` and
`RESULT_UNKNOWN`, in declaration order. -/
def mapped : List Result :=
  declared.filter (fun r => r != RESULT_OK && r != RESULT_UNKNOWN)

/-- Modelled from the spec: the errno number of the POSIX error a code is named
after (`RESULT_X` after `EX`), in the traditional Unix numbering the
specification lists; the table lives in the platform's `errno.h`, which the
repository does not contain. `RESULT_OK` and `RESULT_UNKNOWN` name no POSIX
error. -/
def errno : Result → Option Nat
  | RESULT_OK      => none
  | RESULT_PERM    => some 1
  | RESULT_NOENT   => some 2
  | RESULT_SRCH    => some 3
  | RESULT_INTR    => some 4
  | RESULT_IO      => some 5
  | RESULT_NXIO    => some 6
  | RESULT_2BIG    => some 7
  | RESULT_NOEXEC  => some 8
  | RESULT_BADF    => some 9
  | RESULT_CHILD   => some 10
  | RESULT_DEADLK  => some 11
  | RESULT_NOMEM   => some 12
  | RESULT_ACCES   => some 13
  | RESULT_FAULT   => some 14
  | RESULT_BUSY    => some 16
  | RESULT_EXIST   => some 17
  | RESULT_XDEV    => some 18
  | RESULT_NODEV   => some 19
  | RESULT_NOTDIR  => some 20
  | RESULT_ISDIR   => some 21
  | RESULT_INVAL   => some 22
  | RESULT_NFILE   => some 23
  | RESULT_MFILE   => some 24
  | RESULT_NOTTY   => some 25
  | RESULT_TXTBSY  => some 26
  | RESULT_FBIG    => some 27
  | RESULT_NOSPC   => some 28
  | RESULT_SPIPE   => some 29
  | RESULT_ROFS    => some 30
  | RESULT_MLINK   => some 31
  | RESULT_PIPE    => some 32
  | RESULT_UNKNOWN => none

end Result

/-! ## The `SystemInfo` aggregate -/

/-- The C type of a member of `struct SystemInfo`: `char m[capacity]` or `int m`. -/
inductive MemberType where
  | charArray (capacity : Nat)
  | int
  deriving DecidableEq, Repr

/-- A member declaration: its identifier and its type. -/
structure Member where
  ident : String
  type : MemberType
  deriving DecidableEq, Repr

/-- The capacity of a text member; `none` for a member that is no `char` array. -/
def Member.capacity? (m : Member) : Option Nat :=
  match m.type with
  | .charArray n => some n
  | .int => none

/-- The member declarations of `struct SystemInfo` (sys.h, lines 50-68), in
declaration order. -/
def SystemInfo.members : List Member :=
  [ ⟨"m_DeviceModel", .charArray 32⟩,
    ⟨"m_Manufacturer", .charArray 32⟩,
    ⟨"m_SystemName", .charArray 32⟩,
    ⟨"m_SystemVersion", .charArray 32⟩,
    ⟨"m_Language", .charArray 8⟩,
    ⟨"m_Territory", .charArray 8⟩,
    ⟨"m_GmtOffset", .int⟩,
    ⟨"m_DeviceIdentifier", .charArray 64⟩ ]

/-- A value of `struct SystemInfo`: the contents of each `char` array as a list of
chars, and the `int` as an integer. -/
structure SystemInfo where
  m_DeviceModel : List Char
  m_Manufacturer : List Char
  m_SystemName : List Char
  m_SystemVersion : List Char
  m_Language : List Char
  m_Territory : List Char
  m_GmtOffset : Int
  m_DeviceIdentifier : List Char
  deriving DecidableEq, Repr

/-- The NUL char that terminates a C string. -/
def NUL : Char := Char.ofNat 0

/-- The C string a `char` buffer holds: the chars before its first NUL. -/
def cstr (buf : List Char) : List Char :=
  buf.takeWhile (fun c => c != NUL)

/-! ## Operations declared in sys.h whose bodies live in the platform backends -/

/-- Modelled from the spec: what the platform reports to `GetSystemInfo` for each
item of system information, of any length; an item that is unavailable is the
empty text. -/
structure NativeInfo where
  deviceModel : List Char
  manufacturer : List Char
  systemName : List Char
  systemVersion : List Char
  language : List Char
  territory : List Char
  gmtOffset : Int
  deviceIdentifier : List Char

/-- Modelled from the spec: the bounded copy `GetSystemInfo` fills a text field
with (its body is in the platform backends, not in sys.h): at most `width - 1`
chars of the native text are kept and the rest of the field is NUL, so the field
is truncated and terminated within its `width` chars. -/
def fillField (width : Nat) (native : List Char) : List Char :=
  native.take (width - 1) ++ List.replicate (width - (native.take (width - 1)).length) NUL

/-- Modelled from the spec: `void GetSystemInfo(SystemInfo* info)`, declared in
sys.h with its body in the platform backends: every text field is filled from the
native value by a bounded copy into the field's declared width, and the GMT
offset is stored as it is. -/
def GetSystemInfo (native : NativeInfo) : SystemInfo :=
  { m_DeviceModel := fillField 32 native.deviceModel
    m_Manufacturer := fillField 32 native.manufacturer
    m_SystemName := fillField 32 native.systemName
    m_SystemVersion := fillField 32 native.systemVersion
    m_Language := fillField 8 native.language
    m_Territory := fillField 8 native.territory
    m_GmtOffset := native.gmtOffset
    m_DeviceIdentifier := fillField 64 native.deviceIdentifier }

/-- Modelled from the spec: what a path names in the file system: a regular file
with its bytes, a directory, or something else that is no regular file. -/
inductive Node where
  | regular (contents : List UInt8)
  | directory
  | special

/-- Modelled from the spec: the file system a backend sees: what each path names,
if anything. -/
abbrev FileSystem := String → Option Node

/-- The caller-owned storage `LoadResource` writes to: the bytes at `buffer` and
the integer at `resource_size`. -/
structure LoadState where
  buffer : List UInt8
  resource_size : Nat

/-- Modelled from the spec: `Result LoadResource(path, buffer, buffer_size,
resource_size)`, declared in sys.h with its body in the platform backends:
`RESULT_NOENT` when the path is missing or names no regular file, `RESULT_INVAL`
when the buffer is smaller than the resource, otherwise the whole resource is read
into the buffer, its size is stored and `RESULT_OK` is returned; a failed call
leaves the caller's storage as it was. -/
def LoadResource (fs : FileSystem) (path : String) (buffer_size : Nat) (st : LoadState) :
    Result × LoadState :=
  match fs path with
  | some (.regular contents) =>
      if buffer_size < contents.length then (.RESULT_INVAL, st)
      else (.RESULT_OK,
        { buffer := contents ++ st.buffer.drop contents.length
          resource_size := contents.length })
  | _ => (.RESULT_NOENT, st)

/-- Modelled from the spec: the platform-specific parts of resolving the
application-support directory: how the path is built from the application name, and the outcome of creating the
directory when it is absent (`RESULT_OK` or a mapped error). -/
structure Platform where
  supportPath : List Char → List Char
  ensureDirectory : List Char → Result

/-- Modelled from the spec: `Result GetApplicationSupportPath(application_name,
path, path_len)`, declared in sys.h with its body in the platform backends:
`RESULT_INVAL` when `path_len` cannot hold the resolved path and its terminator,
otherwise the directory is created if absent and, on success, the path and its
terminator are written to the caller's buffer; a failed call leaves the buffer as
it was. -/
def GetApplicationSupportPath (p : Platform) (application_name : List Char)
    (path : List Char) (path_len : Nat) : Result × List Char :=
  let resolved := p.supportPath application_name
  if path_len < resolved.length + 1 then (.RESULT_INVAL, path)
  else
    match p.ensureDirectory resolved with
    | .RESULT_OK => (.RESULT_OK, resolved ++ NUL :: path.drop (resolved.length + 1))
    | e => (e, path)

/-- A text field of `width` chars filled from `native`: the field occupies exactly
`width` chars, its first NUL stands at an index below `width`, and the C string it
holds is `native` cut to at most `width - 1` chars. -/
def FieldHolds (width : Nat) (field native : List Char) : Prop :=
  field.length = width ∧
  (cstr field).length < width ∧
  field[(cstr field).length]? = some NUL ∧
  cstr field = cstr (native.take (width - 1))

/-- A file system with one regular file of five bytes and one directory. -/
def sampleFs : FileSystem := fun path =>
  if path = "res/logo.bin" then some (.regular [1, 2, 3, 4, 5])
  else if path = "res" then some .directory
  else none

/-- A platform that resolves the directory `~/.NAME` and creates it without
error. -/
def samplePlatform : Platform :=
  { supportPath := fun n => '~' :: '/' :: '.' :: n
    ensureDirectory := fun _ => .RESULT_OK }

/-- Native system information with a device model longer than its field. -/
def sampleNative : NativeInfo :=
  { deviceModel := List.replicate 40 'm'
    manufacturer := []
    systemName := ['L', 'i', 'n', 'u', 'x']
    systemVersion := ['1', '2', '.', '0', '.', '1']
    language := ['e', 'n']
    territory := ['U', 'S']
    gmtOffset := -60
    deviceIdentifier := List.replicate 64 'f' }

end dmSys

namespace dmSys

open Result

/-! ## Result codes -/

/-- Distinct enumerators carry distinct integers. -/
lemma Result.value_inj_aux {r s : Result} (h : r.value = s.value) : r = s := by
  cases r <;> cases s <;> first | rfl | exact absurd h (by decide)

/-- Every enumerator occurs in the declaration list. -/
lemma Result.mem_declared_aux (r : Result) : r ∈ Result.declared := by
  cases r <;> decide

/-- C1 (as stated, refuted): it is not the case that every code other than
`RESULT_OK` and `RESULT_UNKNOWN` has the value `-e`, where `e` is the errno of the
POSIX error it is named after: `EBUSY` is 16 and `RESULT_BUSY` is -15. -/
theorem Result.value_neg_errno_fails :
    (Result.errno .RESULT_BUSY = some 16 ∧ Result.value .RESULT_BUSY = -15) ∧
    ¬ (∀ r : Result, r ≠ .RESULT_OK → r ≠ .RESULT_UNKNOWN →
        ∃ e : Nat, r.errno = some e ∧ r.value = -(e : Int)) := by
  refine ⟨⟨rfl, rfl⟩, fun h => ?_⟩
  obtain ⟨e, he, hv⟩ := h .RESULT_BUSY (by decide) (by decide)
  have h16 : e = 16 := by
    have : some 16 = some e := he
    exact (Option.some.inj this).symm
  subst h16
  exact absurd hv (by decide)

/-- C1 (amended): every code other than `RESULT_OK` and `RESULT_UNKNOWN` is named
after a POSIX error whose errno `e` lies in 1..32 and is not 15; its value is `-e`
when `e ≤ 14` (`RESULT_PERM` .. `RESULT_FAULT`) and `-(e - 1)` when `16 ≤ e`
(`RESULT_BUSY` .. `RESULT_PIPE`). -/
theorem Result.value_errno_shifted (r : Result)
    (hok : r ≠ .RESULT_OK) (hunk : r ≠ .RESULT_UNKNOWN) :
    ∃ e : Nat, r.errno = some e ∧ 1 ≤ e ∧ e ≤ 32 ∧ e ≠ 15 ∧
      (e ≤ 14 → r.value = -(e : Int)) ∧ (16 ≤ e → r.value = -((e : Int) - 1)) := by
  cases r
  case RESULT_OK => exact absurd rfl hok
  case RESULT_UNKNOWN => exact absurd rfl hunk
  all_goals exact ⟨_, rfl, by decide⟩

/-- C1 (amended), at `RESULT_BUSY` and `RESULT_FAULT`. -/
theorem Result.value_errno_shifted_witness :
    (∃ e : Nat, Result.errno .RESULT_BUSY = some e ∧ 1 ≤ e ∧ e ≤ 32 ∧ e ≠ 15 ∧
      (e ≤ 14 → Result.value .RESULT_BUSY = -(e : Int)) ∧
      (16 ≤ e → Result.value .RESULT_BUSY = -((e : Int) - 1))) ∧
    (∃ e : Nat, Result.errno .RESULT_FAULT = some e ∧ 1 ≤ e ∧ e ≤ 32 ∧ e ≠ 15 ∧
      (e ≤ 14 → Result.value .RESULT_FAULT = -(e : Int)) ∧
      (16 ≤ e → Result.value .RESULT_FAULT = -((e : Int) - 1))) :=
  ⟨Result.value_errno_shifted .RESULT_BUSY (by decide) (by decide),
   Result.value_errno_shifted .RESULT_FAULT (by decide) (by decide)⟩

/-- C2: `RESULT_OK` has the value 0 and every other code is strictly negative:
for every code the value is 0 exactly when the code is `RESULT_OK`, and the value
is never positive. -/
theorem Result.ok_zero_others_negative :
    Result.value .RESULT_OK = 0 ∧
    ∀ r : Result, (r.value = 0 ↔ r = .RESULT_OK) ∧ r.value ≤ 0 ∧
      (r = .RESULT_OK ∨ r.value < 0) := by
  refine ⟨rfl, fun r => ?_⟩
  cases r <;> decide

/-- C3: the map from result code to integer is injective: differently named codes
have different values, and an integer is the value of at most one code. -/
theorem Result.value_injective :
    Function.Injective Result.value ∧
    (∀ r s : Result, r.name ≠ s.name → r.value ≠ s.value) ∧
    (∀ n : Int, (Result.declared.filter (fun r => r.value == n)).length ≤ 1) := by
  refine ⟨fun r s h => Result.value_inj_aux h, fun r s hne hv => ?_, fun n => ?_⟩
  · exact hne (congrArg Result.name (Result.value_inj_aux hv))
  · have hnd : (Result.declared.filter (fun r => r.value == n)).Nodup :=
      List.Nodup.filter _ (by decide)
    generalize hl : Result.declared.filter (fun r => r.value == n) = l at hnd
    rcases l with _ | ⟨a, _ | ⟨b, t⟩⟩
    · exact Nat.zero_le 1
    · exact Nat.le_refl 1
    · exfalso
      have ha : a ∈ Result.declared.filter (fun r => r.value == n) := by simp [hl]
      have hb : b ∈ Result.declared.filter (fun r => r.value == n) := by simp [hl]
      have hab : a = b := by
        apply Result.value_inj_aux
        have h1 := (List.mem_filter.mp ha).2
        have h2 := (List.mem_filter.mp hb).2
        simp only [beq_iff_eq] at h1 h2
        rw [h1, h2]
      subst hab
      simp at hnd

/-- C4: `RESULT_UNKNOWN` is -1000, strictly below every other code; the smallest
mapped code is `RESULT_PIPE`, no code has a value strictly between the two, and no
negated errno of a mapped code equals the sentinel. -/
theorem Result.unknown_isolated :
    Result.value .RESULT_UNKNOWN = -1000 ∧
    (∀ r : Result, r = .RESULT_UNKNOWN ∨ Result.value .RESULT_UNKNOWN < r.value) ∧
    (∀ r : Result, r = .RESULT_UNKNOWN ∨ Result.value .RESULT_PIPE ≤ r.value) ∧
    (∀ r : Result,
      ¬ (Result.value .RESULT_UNKNOWN < r.value ∧ r.value < Result.value .RESULT_PIPE)) ∧
    (∀ r : Result, ∀ e : Nat, r.errno = some e →
      -(e : Int) ≠ Result.value .RESULT_UNKNOWN) := by
  refine ⟨rfl, fun r => ?_, fun r => ?_, fun r => ?_, fun r e he => ?_⟩
  · cases r <;> decide
  · cases r <;> decide
  · cases r <;> decide
  · have hle : e ≤ 32 := by
      cases r <;> simp [Result.errno] at he <;> omega
    have hv : Result.value .RESULT_UNKNOWN = -1000 := rfl
    omega

/-- C10: there are exactly 31 mapped codes, from `RESULT_PERM` to `RESULT_PIPE`; they
are all codes other than `RESULT_OK` and `RESULT_UNKNOWN`; the k-th in declaration
order has value `-k`; and each of -1 .. -31 is the value of exactly one code. -/
theorem Result.mapped_consecutive :
    Result.mapped.length = 31 ∧
    Result.mapped.head? = some .RESULT_PERM ∧
    Result.mapped.getLast? = some .RESULT_PIPE ∧
    (∀ r : Result, r ∈ Result.mapped ↔ (r ≠ .RESULT_OK ∧ r ≠ .RESULT_UNKNOWN)) ∧
    Result.mapped.map Result.value = (List.range 31).map (fun k => -((k : Int) + 1)) ∧
    (∀ n : Int, 1 ≤ n → n ≤ 31 → ∃! r : Result, r.value = -n) := by
  refine ⟨by decide, by decide, by decide, fun r => ?_, by decide, fun n h1 h2 => ?_⟩
  · cases r <;> decide
  · have hfin : ∀ k : Fin 31, ∃ r : Result, r.value = -((k : Int) + 1) := by decide
    obtain ⟨r, hr⟩ := hfin ⟨(n - 1).toNat, by omega⟩
    have hn : ((n - 1).toNat : Int) = n - 1 := Int.toNat_of_nonneg (by omega)
    have hr2 : r.value = -n := by
      have hr1 : r.value = -(((n - 1).toNat : Int) + 1) := hr
      rw [hr1, hn]
      ring
    exact ⟨r, hr2, fun s hs => Result.value_inj_aux (hs.trans hr2.symm)⟩

/-- C5: the enumeration is closed (its 33 declared codes are all the codes there
are, each declared once), it declares every code the specification names, and
exactly one of its error codes is named after no POSIX error: `RESULT_UNKNOWN`. -/
theorem Result.closed_enumeration :
    (∀ r : Result, r ∈ Result.declared) ∧
    Result.declared.Nodup ∧
    Result.declared.length = 33 ∧
    Fintype.card Result = 33 ∧
    (∀ n ∈ ["RESULT_OK", "RESULT_ACCES", "RESULT_NOENT", "RESULT_IO", "RESULT_NOSPC",
            "RESULT_INVAL", "RESULT_BUSY", "RESULT_EXIST", "RESULT_NOTDIR",
            "RESULT_ISDIR", "RESULT_UNKNOWN"],
        n ∈ Result.declared.map Result.name) ∧
    (∃! r : Result, r ≠ .RESULT_OK ∧ r.errno = none) ∧
    (∀ r : Result, (r ≠ .RESULT_OK ∧ r.errno = none) ↔ r = .RESULT_UNKNOWN) := by
  have hiff : ∀ r : Result, (r ≠ .RESULT_OK ∧ r.errno = none) ↔ r = .RESULT_UNKNOWN := by
    intro r
    cases r <;> decide
  refine ⟨Result.mem_declared_aux, by decide, by decide, by decide, by decide, ?_, hiff⟩
  exact ⟨.RESULT_UNKNOWN, (hiff _).mpr rfl, fun s hs => (hiff s).mp hs⟩

/-! ## SystemInfo -/

/-- C9: `struct SystemInfo` has eight members: seven `char` arrays (device model,
manufacturer, system name, system version, language, territory, device
identifier), each of positive capacity, and one `int`, the GMT offset. -/
theorem SystemInfo.members_shape :
    SystemInfo.members.length = 8 ∧
    (SystemInfo.members.filter (fun m => m.capacity?.isSome)).map Member.ident =
      ["m_DeviceModel", "m_Manufacturer", "m_SystemName", "m_SystemVersion",
       "m_Language", "m_Territory", "m_DeviceIdentifier"] ∧
    SystemInfo.members.filter (fun m => m.type == MemberType.int) =
      [⟨"m_GmtOffset", MemberType.int⟩] ∧
    (∀ m ∈ SystemInfo.members,
      m.type = MemberType.int ∨ ∃ n : Nat, 0 < n ∧ m.type = MemberType.charArray n) := by
  refine ⟨by decide, by decide, by decide, ?_⟩
  intro m hm
  simp only [SystemInfo.members, List.mem_cons, List.mem_singleton, List.not_mem_nil,
    or_false] at hm
  rcases hm with rfl | rfl | rfl | rfl | rfl | rfl | rfl | rfl
  · exact Or.inr ⟨32, by decide, rfl⟩
  · exact Or.inr ⟨32, by decide, rfl⟩
  · exact Or.inr ⟨32, by decide, rfl⟩
  · exact Or.inr ⟨32, by decide, rfl⟩
  · exact Or.inr ⟨8, by decide, rfl⟩
  · exact Or.inr ⟨8, by decide, rfl⟩
  · exact Or.inl rfl
  · exact Or.inr ⟨64, by decide, rfl⟩

/-- The C string of a buffer ends at the first NUL: what follows it is not read. -/
lemma cstr_append_nul (l t : List Char) : cstr (l ++ NUL :: t) = cstr l := by
  induction l with
  | nil => simp [cstr, NUL]
  | cons c l ih =>
    by_cases hc : c = NUL
    · subst hc
      simp [cstr, NUL]
    · have hb : (c != NUL) = true := by simpa using hc
      unfold cstr at ih ⊢
      rw [List.cons_append, List.takeWhile_cons, List.takeWhile_cons, hb]
      simp only [if_true]
      rw [ih]

/-- The C string of a buffer is no longer than the buffer. -/
lemma cstr_length_le (l : List Char) : (cstr l).length ≤ l.length := by
  unfold cstr
  exact (List.takeWhile_sublist _).length_le

/-- A buffer longer than its C string holds a NUL right after it. -/
lemma cstr_terminator (buf : List Char) (h : (cstr buf).length < buf.length) :
    buf[(cstr buf).length]? = some NUL := by
  induction buf with
  | nil => simp at h
  | cons c l ih =>
    by_cases hc : c = NUL
    · subst hc
      simp [cstr, NUL]
    · have hb : (c != NUL) = true := by simpa using hc
      have hcs : cstr (c :: l) = c :: cstr l := by
        unfold cstr
        rw [List.takeWhile_cons, hb]
        rfl
      rw [hcs] at h ⊢
      simp only [List.length_cons, Nat.add_lt_add_iff_right] at h
      simpa using ih h

/-- A bounded copy fills a field of positive width as `FieldHolds` says. -/
lemma fillField_holds (width : Nat) (hw : 0 < width) (native : List Char) :
    FieldHolds width (fillField width native) native := by
  have hlen : (native.take (width - 1)).length ≤ width - 1 := by
    rw [List.length_take]
    exact Nat.min_le_left _ _
  have hfill : (fillField width native).length = width := by
    unfold fillField
    rw [List.length_append, List.length_replicate]
    omega
  have hpos : width - (native.take (width - 1)).length =
      (width - (native.take (width - 1)).length - 1) + 1 := by omega
  have hcs : cstr (fillField width native) = cstr (native.take (width - 1)) := by
    unfold fillField
    rw [hpos, List.replicate_succ]
    exact cstr_append_nul _ _
  have hlt : (cstr (fillField width native)).length < width := by
    rw [hcs]
    have := cstr_length_le (native.take (width - 1))
    omega
  exact ⟨hfill, hlt, cstr_terminator _ (by rw [hfill]; exact hlt), hcs⟩

/-- C8: whatever the native values are, every text field of the record
`GetSystemInfo` fills occupies exactly its declared width (32, 32, 32, 32, 8, 8
and 64 chars), holds a terminator at an index below that width, and holds the
native text cut to at most width - 1 chars. -/
theorem GetSystemInfo_fields_terminated (native : NativeInfo) :
    SystemInfo.members.filterMap Member.capacity? = [32, 32, 32, 32, 8, 8, 64] ∧
    FieldHolds 32 (GetSystemInfo native).m_DeviceModel native.deviceModel ∧
    FieldHolds 32 (GetSystemInfo native).m_Manufacturer native.manufacturer ∧
    FieldHolds 32 (GetSystemInfo native).m_SystemName native.systemName ∧
    FieldHolds 32 (GetSystemInfo native).m_SystemVersion native.systemVersion ∧
    FieldHolds 8 (GetSystemInfo native).m_Language native.language ∧
    FieldHolds 8 (GetSystemInfo native).m_Territory native.territory ∧
    FieldHolds 64 (GetSystemInfo native).m_DeviceIdentifier native.deviceIdentifier :=
  ⟨by decide,
   fillField_holds 32 (by decide) _, fillField_holds 32 (by decide) _,
   fillField_holds 32 (by decide) _, fillField_holds 32 (by decide) _,
   fillField_holds 8 (by decide) _, fillField_holds 8 (by decide) _,
   fillField_holds 64 (by decide) _⟩

/-- C8 at native data whose device model (40 chars) and device identifier (64
chars) are longer than their fields: the fields keep 31 and 63 chars. -/
theorem GetSystemInfo_fields_terminated_witness :
    FieldHolds 32 (GetSystemInfo sampleNative).m_DeviceModel (List.replicate 40 'm') ∧
    FieldHolds 64 (GetSystemInfo sampleNative).m_DeviceIdentifier (List.replicate 64 'f') ∧
    (GetSystemInfo sampleNative).m_DeviceModel = List.replicate 31 'm' ++ [NUL] ∧
    (GetSystemInfo sampleNative).m_Language = ['e', 'n'] ++ List.replicate 6 NUL :=
  ⟨(GetSystemInfo_fields_terminated sampleNative).2.1,
   (GetSystemInfo_fields_terminated sampleNative).2.2.2.2.2.2.2,
   by decide, by decide⟩

/-! ## LoadResource -/

/-- C6: for a path naming a regular file of `n` bytes, `LoadResource` returns
`RESULT_OK`, stores `n` as the resource size and the file's bytes in the buffer
when `n ≤ buffer_size`, and returns `RESULT_INVAL` with the caller's storage
untouched when `buffer_size < n`; for a path that is missing or names no regular
file it returns `RESULT_NOENT` with the caller's storage untouched. -/
theorem LoadResource_contract (fs : FileSystem) (path : String) (buffer_size : Nat)
    (st : LoadState) :
    (∀ contents : List UInt8, fs path = some (Node.regular contents) →
      (contents.length ≤ buffer_size →
        (LoadResource fs path buffer_size st).1 = .RESULT_OK ∧
        (LoadResource fs path buffer_size st).2.resource_size = contents.length ∧
        (LoadResource fs path buffer_size st).2.buffer.take contents.length = contents) ∧
      (buffer_size < contents.length →
        LoadResource fs path buffer_size st = (.RESULT_INVAL, st))) ∧
    ((∀ contents : List UInt8, fs path ≠ some (Node.regular contents)) →
      LoadResource fs path buffer_size st = (.RESULT_NOENT, st)) := by
  refine ⟨fun contents hfile => ⟨fun hfit => ?_, fun hsmall => ?_⟩, fun hnone => ?_⟩
  · have hnot : ¬ buffer_size < contents.length := Nat.not_lt.mpr hfit
    simp [LoadResource, hfile, hnot]
  · simp [LoadResource, hfile, hsmall]
  · unfold LoadResource
    split
    · next contents hfile => exact absurd hfile (hnone contents)
    · rfl

/-- C6 on a file of five bytes: a buffer of five bytes loads it, a buffer of four
is refused, and a directory or a missing path is not found. -/
theorem LoadResource_contract_witness :
    ((LoadResource sampleFs "res/logo.bin" 5 ⟨[0, 0, 0, 0, 0], 77⟩).1 = .RESULT_OK ∧
      (LoadResource sampleFs "res/logo.bin" 5 ⟨[0, 0, 0, 0, 0], 77⟩).2.resource_size = 5 ∧
      (LoadResource sampleFs "res/logo.bin" 5 ⟨[0, 0, 0, 0, 0], 77⟩).2.buffer.take 5 =
        [1, 2, 3, 4, 5]) ∧
    LoadResource sampleFs "res/logo.bin" 4 ⟨[0, 0, 0, 0], 77⟩ =
      (.RESULT_INVAL, ⟨[0, 0, 0, 0], 77⟩) ∧
    LoadResource sampleFs "res" 4 ⟨[0, 0, 0, 0], 77⟩ = (.RESULT_NOENT, ⟨[0, 0, 0, 0], 77⟩) ∧
    LoadResource sampleFs "nothing" 4 ⟨[0, 0, 0, 0], 77⟩ =
      (.RESULT_NOENT, ⟨[0, 0, 0, 0], 77⟩) :=
  ⟨((LoadResource_contract sampleFs "res/logo.bin" 5 ⟨[0, 0, 0, 0, 0], 77⟩).1
      [1, 2, 3, 4, 5] (by simp [sampleFs])).1 (by decide),
   ((LoadResource_contract sampleFs "res/logo.bin" 4 ⟨[0, 0, 0, 0], 77⟩).1
      [1, 2, 3, 4, 5] (by simp [sampleFs])).2 (by decide),
   (LoadResource_contract sampleFs "res" 4 ⟨[0, 0, 0, 0], 77⟩).2
      (fun contents => by simp [sampleFs]),
   (LoadResource_contract sampleFs "nothing" 4 ⟨[0, 0, 0, 0], 77⟩).2
      (fun contents => by simp [sampleFs])⟩

/-! ## GetApplicationSupportPath -/

/-- Writing `l` and one more char over the start of a buffer changes nothing at
or past an index `n` that `l` and that char fit below. -/
lemma drop_written_aux (l : List Char) (c : Char) (buf : List Char) (n : Nat)
    (h : l.length + 1 ≤ n) :
    (l ++ c :: buf.drop (l.length + 1)).drop n = buf.drop n := by
  obtain ⟨k, rfl⟩ := Nat.exists_eq_add_of_le h
  rw [Nat.add_assoc, List.drop_append, Nat.add_comm 1 k, List.drop_succ_cons, List.drop_drop]
  congr 1
  omega

/-- C7: when `path_len` cannot hold the resolved path and its terminator,
`GetApplicationSupportPath` returns `RESULT_INVAL` and leaves the buffer as it was;
when it returns `RESULT_OK`, the resolved path and its terminator fit in `path_len`,
the buffer starts with them untruncated, and nothing at or past `path_len` is
changed. -/
theorem GetApplicationSupportPath_capacity (p : Platform) (application_name : List Char)
    (path : List Char) (path_len : Nat) :
    (path_len < (p.supportPath application_name).length + 1 →
      GetApplicationSupportPath p application_name path path_len = (.RESULT_INVAL, path)) ∧
    ((GetApplicationSupportPath p application_name path path_len).1 = .RESULT_OK →
      (p.supportPath application_name).length + 1 ≤ path_len ∧
      (GetApplicationSupportPath p application_name path path_len).2.take
          ((p.supportPath application_name).length + 1) =
        p.supportPath application_name ++ [NUL] ∧
      (GetApplicationSupportPath p application_name path path_len).2.drop path_len =
        path.drop path_len) := by
  constructor
  · intro hsmall
    simp [GetApplicationSupportPath, hsmall]
  · intro hok
    by_cases hsmall : path_len < (p.supportPath application_name).length + 1
    · simp [GetApplicationSupportPath, hsmall] at hok
    · have hfit : (p.supportPath application_name).length + 1 ≤ path_len :=
        Nat.not_lt.mp hsmall
      cases hdir : p.ensureDirectory (p.supportPath application_name) <;>
        simp [GetApplicationSupportPath, hsmall, hdir] at hok
      refine ⟨hfit, ?_, ?_⟩
      · simp [GetApplicationSupportPath, hsmall, hdir, List.take_append_eq_append_take]
      · simp only [GetApplicationSupportPath, hsmall, hdir, if_false]
        exact drop_written_aux _ _ _ _ hfit

/-- C7 for the application `demo`, resolved to the seven chars `~/.demo`: a buffer
of seven chars is refused, a buffer of eight holds the path and its terminator. -/
theorem GetApplicationSupportPath_capacity_witness :
    GetApplicationSupportPath samplePlatform ['d', 'e', 'm', 'o'] (List.replicate 7 'x') 7 =
      (.RESULT_INVAL, List.replicate 7 'x') ∧
    (samplePlatform.supportPath ['d', 'e', 'm', 'o']).length + 1 ≤ 8 ∧
    (GetApplicationSupportPath samplePlatform ['d', 'e', 'm', 'o']
        (List.replicate 8 'x') 8).2.take
        ((samplePlatform.supportPath ['d', 'e', 'm', 'o']).length + 1) =
      samplePlatform.supportPath ['d', 'e', 'm', 'o'] ++ [NUL] ∧
    (GetApplicationSupportPath samplePlatform ['d', 'e', 'm', 'o']
        (List.replicate 8 'x') 8).2.drop 8 = (List.replicate 8 'x').drop 8 :=
  ⟨(GetApplicationSupportPath_capacity samplePlatform ['d', 'e', 'm', 'o']
      (List.replicate 7 'x') 7).1 (by decide),
   (GetApplicationSupportPath_capacity samplePlatform ['d', 'e', 'm', 'o']
      (List.replicate 8 'x') 8).2 (by decide)⟩

end dmSys
